import Mathlib

/-!
Formal model of the `ia_text_2_speak` orchestration core.

The Python sources are shallowly embedded: pure functions become Lean
functions, SQLite tables become explicit lists threaded through state,
floats become exact rationals (with real-valued square roots where the
source takes `** 0.5`), and fallible calls return `Except`.  External
collaborators (Whisper, the chat model, Piper, the embedding service,
`requests`) are abstracted as oracle functions at exactly the call
boundaries the source uses.
-/

/-! ### Python exceptions and JSON-like values -/

/-- Exceptions that can cross the boundaries modelled here.  `toMessage`
plays the role of `str(e)` at the worker boundary. -/
inductive PyExc where
  | valueError (msg : String)
  | jsonDecodeError (msg : String)
  | keyError (msg : String)
  | httpStatusError (msg : String)
  | requestError (msg : String)
  | httpException (status_code : Int) (detail : String)
  | collaborator (msg : String)
deriving DecidableEq, Repr

def PyExc.toMessage : PyExc → String
  | .valueError m => m
  | .jsonDecodeError m => m
  | .keyError m => m
  | .httpStatusError m => m
  | .requestError m => m
  | .httpException _ d => d
  | .collaborator m => m

/-- JSON values (Python dicts, lists, and scalars crossing the tool and
chat boundaries).  Numbers are modelled exactly as rationals. -/
inductive Json where
  | null : Json
  | bool (b : Bool) : Json
  | num (q : ℚ) : Json
  | str (s : String) : Json
  | arr (items : List Json) : Json
  | obj (fields : List (String × Json)) : Json

/-- `d.get(key)` on a Python dict; `None` on anything that is not a dict
(this is the `isinstance(arguments, Mapping)` guard in the registry). -/
def Json.get : Json → String → Option Json
  | .obj fields, key => fields.lookup key
  | _, _ => none

/-- Indexing `data[i]` on a JSON array. -/
def Json.index : Json → Nat → Option Json
  | .arr items, i => items.get? i
  | _, _ => none

/-- Update-or-append on an association list: the semantics of
`d[k] = v` on a Python dict (existing keys keep their position, new keys
are appended). -/
def assocSet {α : Type} : List (String × α) → String → α → List (String × α)
  | [], k, v => [(k, v)]
  | p :: rest, k, v => if p.1 = k then (k, v) :: rest else p :: assocSet rest k v

/-- Python substring containment `pat in s` (for a non-empty pattern):
`s.splitOn pat` has more than one part exactly when `pat` occurs in `s`. -/
def strContains (s pat : String) : Bool := (s.splitOn pat).length != 1

/-! ### Data model: `app/core/models.py` -/

inductive TurnStatus where
  | queued | transcribing | generating | synthesizing | done | error
deriving DecidableEq, Repr

def TurnStatus.isTerminal : TurnStatus → Bool
  | .done => true
  | .error => true
  | _ => false

/-- One tool call as decoded by `OpenAIChatClient.chat_with_tools`:
a dict with keys `id`, `name`, `arguments` (raw JSON string). -/
structure ToolCallReq where
  id : String
  name : String
  arguments : String
deriving DecidableEq, Repr

/-- The wire shape of a tool call inside the assistant follow-up message
built by the pipeline (with the constant `"type": "function"` wrapper). -/
structure ToolCallMsgEntry where
  id : String
  type : String := "function"
  function_name : String
  function_arguments : String
deriving Repr

/-- The structured result dictionary returned by `ToolRegistry.execute`.
Each Python result dict carries a subset of these keys; absent keys are
`none`. -/
structure ToolResult where
  ok : Bool
  error : Option String := none
  status_code : Option Int := none
  data : Option Json := none
  text : Option String := none

/-- One entry of the `tool_results` list assembled by the pipeline. -/
structure ToolResultEntry where
  tool_call_id : String
  name : String
  result : ToolResult

/-- The `Turn` dataclass.  `tool_calls` / `tool_results` are NOT fields of
the dataclass in `app/core/models.py`; the pipeline sets them as dynamic
attributes in its tool branch only.  `none` models the absent attribute
(reading it in Python raises `AttributeError`). -/
structure Turn where
  turn_id : String
  session_id : String
  status : TurnStatus := .queued
  audio_in_path : Option String := none
  transcript : Option String := none
  assistant_text : Option String := none
  audio_out_path : Option String := none
  error : Option String := none
  created_at : ℚ := 0
  timings : List (String × ℚ) := []
  tool_calls : Option (List ToolCallReq) := none
  tool_results : Option (List ToolResultEntry) := none

/-! ### Turn store: `app/core/store.py` (a keyed dict of records) -/

def TurnStore := List (String × Turn)

def TurnStore.get (store : TurnStore) (turn_id : String) : Option Turn :=
  List.lookup turn_id store

def TurnStore.put (store : TurnStore) (turn : Turn) : TurnStore :=
  assocSet store turn.turn_id turn

/-! ### Chat messages -/

/-- A role/content message dict.  History, system and user messages carry
only `role` and `content`; the assistant tool message additionally has
`tool_calls`; tool result messages have `tool_call_id` and `name`. -/
structure Msg where
  role : String
  content : String
  tool_call_id : Option String := none
  name : Option String := none
  tool_calls : List ToolCallMsgEntry := []
deriving Repr

/-! ### Tool registry: `app/tools/tool_registry.py` -/

structure ToolEndpoint where
  name : String
  description : String
  url : Option String := none
  method : String := "POST"
  timeout_s : ℚ := 20
  parameters : Option Json := none
  handler : Option (Json → Except PyExc Json) := none

/-- Outcome of `requests.request` as seen by the registry. -/
structure HttpResponse where
  ok : Bool
  status_code : Int
  content_type : String
  jsonBody : Option Json
  text : String

/-- Oracle for `requests.request(method, url, json=payload, timeout=t)`.
`Except.error msg` models a raised `requests.RequestException`.
`jsonBody = none` models `response.json()` raising `JSONDecodeError`. -/
def RemoteOracle : Type :=
  String → String → Option Json → ℚ → Except String HttpResponse

structure ToolRegistry where
  endpoints : List ToolEndpoint

/-- The dict `{endpoint.name: endpoint for endpoint in endpoints}`:
insertion order with later duplicates overwriting in place. -/
def ToolRegistry.dict (reg : ToolRegistry) : List (String × ToolEndpoint) :=
  reg.endpoints.foldl (fun d e => assocSet d e.name e) []

def ToolRegistry.find (reg : ToolRegistry) (tool_name : String) : Option ToolEndpoint :=
  List.lookup tool_name reg.dict

/-- The fallback parameter schema used by `tool_specs`. -/
def defaultToolParameters : Json :=
  .obj [("type", .str "object"),
        ("properties", .obj [("payload",
          .obj [("type", .str "object"),
                ("description", .str "Données JSON à envoyer au service.")])]),
        ("required", .arr [])]

structure ToolSpec where
  type : String := "function"
  name : String
  description : String
  parameters : Json

/-- `tool_specs`: one capability descriptor per registered endpoint.
`endpoint.parameters or default` is Python truthiness: `None` and the
empty dict both fall back to the default schema. -/
def ToolRegistry.tool_specs (reg : ToolRegistry) : List ToolSpec :=
  reg.dict.map (fun p =>
    let parameters :=
      match p.2.parameters with
      | none => defaultToolParameters
      | some (.obj []) => defaultToolParameters
      | some j => j
    { name := p.2.name, description := p.2.description, parameters := parameters })

/-- `ToolRegistry.execute`: a total function into a structured result.
Unknown names, handler exceptions, missing URLs and transport failures
are all converted into `ok := false` results; nothing escapes. -/
def ToolRegistry.execute (reg : ToolRegistry) (remote : RemoteOracle)
    (tool_name : String) (arguments : Json) : ToolResult :=
  match reg.find tool_name with
  | none => { ok := false, error := some ("tool_not_found: " ++ tool_name) }
  | some endpoint =>
    match endpoint.handler with
    | some handler =>
      match handler arguments with
      | .ok data => { ok := true, data := some data }
      | .error (.httpException sc detail) =>
          { ok := false, error := some detail, status_code := some sc }
      | .error exc =>
          { ok := false, error := some ("handler_failed: " ++ exc.toMessage) }
    | none =>
      match endpoint.url with
      | none => { ok := false, error := some ("tool_missing_url: " ++ tool_name) }
      | some url =>
        if url = "" then
          { ok := false, error := some ("tool_missing_url: " ++ tool_name) }
        else
          let payload := arguments.get "payload"
          match remote endpoint.method.toUpper url payload endpoint.timeout_s with
          | .error msg => { ok := false, error := some ("request_failed: " ++ msg) }
          | .ok response =>
            let data :=
              if strContains response.content_type.toLower "application/json" then
                response.jsonBody
              else none
            match data with
            | some d =>
                { ok := response.ok, status_code := some response.status_code,
                  data := some d, text := none }
            | none =>
                { ok := response.ok, status_code := some response.status_code,
                  data := none, text := some response.text }

/-! ### llama.cpp client: `app/llm/llm_client.py` -/

structure LlamaCppClient where
  base_url : String := "http://127.0.0.1:8080"
  timeout_s : ℚ := 300

/-- Outcome of `requests.post` against the chat endpoint.  `status_ok`
false makes `raise_for_status` raise; `body = none` models a JSON decode
failure; `elapsed` is the wall-clock duration of the call. -/
structure ChatHttpResponse where
  status_ok : Bool
  status_code : Int
  body : Option Json
  elapsed : ℚ

/-- Oracle for `requests.post(url, json=payload, timeout=t)`. -/
def PostOracle : Type := String → Json → ℚ → Except String ChatHttpResponse

def ToolCallMsgEntry.toJson (e : ToolCallMsgEntry) : Json :=
  .obj [("id", .str e.id), ("type", .str e.type),
        ("function", .obj [("name", .str e.function_name),
                           ("arguments", .str e.function_arguments)])]

def Msg.toJson (m : Msg) : Json :=
  .obj ([("role", .str m.role)]
    ++ (match m.tool_call_id with | some v => [("tool_call_id", .str v)] | none => [])
    ++ (match m.name with | some v => [("name", .str v)] | none => [])
    ++ [("content", .str m.content)]
    ++ (if m.tool_calls.isEmpty then []
        else [("tool_calls", .arr (m.tool_calls.map ToolCallMsgEntry.toJson))]))

def LlamaCppClient.chatPayload (messages : List Msg) (temperature : ℚ)
    (max_tokens : Int) (model : Option String) : Json :=
  .obj ([("messages", .arr (messages.map Msg.toJson)),
         ("temperature", .num temperature),
         ("max_tokens", .num (max_tokens : ℚ))]
    ++ (match model with | some m => [("model", .str m)] | none => []))

/-- Extraction `data["choices"][0]["message"]["content"]` followed by
`.strip()`; any missing key or non-string content raises. -/
def extractChatContent (data : Json) : Option String :=
  (((data.get "choices").bind (fun c => c.index 0)).bind
      (fun c0 => c0.get "message")).bind
    (fun msg => match msg.get "content" with
      | some (.str s) => some s
      | _ => none)

def LlamaCppClient.chat (self : LlamaCppClient) (post : PostOracle)
    (messages : List Msg) (temperature : ℚ := 2/10) (max_tokens : Int := 300)
    (model : Option String := none) : Except PyExc (String × ℚ) :=
  match post (self.base_url ++ "/v1/chat/completions")
        (LlamaCppClient.chatPayload messages temperature max_tokens model)
        self.timeout_s with
  | .error msg => .error (.requestError msg)
  | .ok r =>
    if r.status_ok then
      match r.body with
      | none => .error (.jsonDecodeError "Expecting value")
      | some data =>
        match extractChatContent data with
        | none => .error (.keyError "choices")
        | some text => .ok (text.trim, r.elapsed)
    else .error (.httpStatusError (toString r.status_code))

/-- `chat_with_tools` on the llama.cpp backend: delegates to `chat` with
the same messages and returns an empty tool-call list; the `tools`
argument is never used. -/
def LlamaCppClient.chat_with_tools (self : LlamaCppClient) (post : PostOracle)
    (messages : List Msg) (tools : List ToolSpec) (temperature : ℚ := 2/10)
    (max_tokens : Int := 300) (model : Option String := none) :
    Except PyExc (String × List ToolCallReq × ℚ) :=
  match self.chat post messages temperature max_tokens model with
  | .error e => .error e
  | .ok (text, dt) => .ok (text, [], dt)

/-! ### Memory store: `app/core/memory.py` -/

/-- A row of the `memories` table. -/
structure MemRow where
  id : Nat
  session_id : String
  role : String
  content : String
deriving DecidableEq, Repr

/-- A row of the `memory_vectors` table (written only when an embedding
was computed). -/
structure VecRow where
  id : Nat
  memory_id : Nat
  session_id : String
  role : String
  content : String
  embedding : List ℚ
deriving DecidableEq, Repr

/-- The SQLite database backing `SQLiteMemory`: both tables in insertion
order together with their AUTOINCREMENT counters.  `created_at`
(CURRENT_TIMESTAMP) is omitted: no query in the repository reads it. -/
structure MemDb where
  memories : List MemRow := []
  vectors : List VecRow := []
  next_mem_id : Nat := 1
  next_vec_id : Nat := 1
deriving DecidableEq, Repr

/-- Oracle for the OpenAI embeddings call. -/
def EmbedOracle : Type := String → Except PyExc (List ℚ)

/-- `SQLiteMemory._embed`: empty input short-circuits to the empty
vector without calling the service. -/
def SQLiteMemory._embed (o : EmbedOracle) (text : String) : Except PyExc (List ℚ) :=
  if text = "" then .ok []
  else o text

/-- `SQLiteMemory.append`.  Empty content returns immediately: nothing is
written.  Otherwise the `memories` INSERT and the `_embed` call happen
inside one `with conn` block, which commits on success and rolls back on
an exception — so a failing `_embed` leaves the database unchanged. -/
def SQLiteMemory.append (o : EmbedOracle) (db : MemDb)
    (session_id role content : String) : Except PyExc MemDb :=
  if content = "" then .ok db
  else
    let memory_id := db.next_mem_id
    match SQLiteMemory._embed o content with
    | .error e => .error e
    | .ok embedding =>
      let db1 : MemDb :=
        { db with
          memories := db.memories ++
            [{ id := memory_id, session_id := session_id, role := role, content := content }],
          next_mem_id := db.next_mem_id + 1 }
      if embedding = [] then .ok db1
      else .ok
        { db1 with
          vectors := db1.vectors ++
            [{ id := db.next_vec_id, memory_id := memory_id, session_id := session_id,
               role := role, content := content, embedding := embedding }],
          next_vec_id := db.next_vec_id + 1 }

/-- `fetch_recent`: up to `limit` most recent entries of the session,
reversed back into chronological order. -/
def SQLiteMemory.fetch_recent (db : MemDb) (session_id : String) (limit : Int) :
    List (String × String) :=
  if limit ≤ 0 then []
  else
    let rows := ((db.memories.filter (fun r => r.session_id = session_id)).reverse).take limit.toNat
    rows.reverse.map (fun r => (r.role, r.content))

/-! ### Cosine scoring (`_vector_norm`, `_cosine_similarity`)

Floats are modelled as exact rationals; `** 0.5` becomes `Real.sqrt`.
The sort inside `search` compares these real scores; `geCmp` below is an
exact rational decision procedure for that comparison, proved equivalent
in the theorems section. -/

def vecDot (query candidate : List ℚ) : ℚ :=
  ((query.zip candidate).map (fun p => p.1 * p.2)).sum

def vecNormSq (vector : List ℚ) : ℚ :=
  (vector.map (fun value => value * value)).sum

noncomputable def _vector_norm (vector : List ℚ) : ℝ :=
  Real.sqrt ((vecNormSq vector : ℚ) : ℝ)

open scoped Classical in
noncomputable def _cosine_similarity (query candidate : List ℚ) (query_norm : ℝ) : ℝ :=
  if query = [] ∨ candidate = [] then 0
  else
    let candidate_norm := _vector_norm candidate
    if candidate_norm = 0 ∨ query_norm = 0 then 0
    else ((vecDot query candidate : ℚ) : ℝ) / (query_norm * candidate_norm)

/-- Symbolic form of a cosine score: `(a, x)` stands for `a / √x` with
`x > 0`; every zero-scoring branch of `_cosine_similarity` is
represented by `(0, 1)`. -/
def symScore (query candidate : List ℚ) : ℚ × ℚ :=
  if query = [] ∨ candidate = [] then (0, 1)
  else if vecNormSq candidate = 0 ∨ vecNormSq query = 0 then (0, 1)
  else (vecDot query candidate, vecNormSq query * vecNormSq candidate)

/-- Exact decision procedure for `a / √x ≥ b / √y` (for `x, y > 0`), the
comparison the Python float sort performs on cosine scores. -/
def geCmp (p q : ℚ × ℚ) : Bool :=
  if 0 ≤ p.1 then
    (if 0 ≤ q.1 then decide (q.1 ^ 2 * p.2 ≤ p.1 ^ 2 * q.2) else true)
  else
    (if 0 ≤ q.1 then false else decide (p.1 ^ 2 * q.2 ≤ q.1 ^ 2 * p.2))

/-- Score comparison between two candidate rows for a fixed query
embedding: row `a` scores at least as high as row `b`. -/
def scoreGE (query : List ℚ) (a b : VecRow) : Bool :=
  geCmp (symScore query a.embedding) (symScore query b.embedding)

/-- The `ORDER BY id DESC LIMIT candidate_limit` scan over
`memory_vectors` for one session (`db.vectors` is kept in ascending id
order, so most recent first means reversing). -/
def searchCandidates (db : MemDb) (session_id : String) (candidate_limit : Nat) : List VecRow :=
  ((db.vectors.filter (fun r => r.session_id = session_id)).reverse).take candidate_limit

/-- The rows selected by `search`: the candidate scan, stable-sorted
descending by score (Python `list.sort(key=score, reverse=True)` is a
stable merge sort; its float comparison is decided exactly by
`scoreGE`), then sliced to `limit`. -/
def searchRows (db : MemDb) (query_embedding : List ℚ) (session_id : String)
    (limit : Int) (candidate_limit : Nat) : List VecRow :=
  ((searchCandidates db session_id candidate_limit).mergeSort
      (scoreGE query_embedding)).take limit.toNat

/-- `SQLiteMemory.search`: embeds the query and returns the contents of
the `limit` best-scoring candidate rows, descending by score. -/
def SQLiteMemory.search (o : EmbedOracle) (db : MemDb) (session_id query : String)
    (limit : Int := 6) (candidate_limit : Nat := 200) : Except PyExc (List String) :=
  if query = "" ∨ limit ≤ 0 then .ok []
  else
    match SQLiteMemory._embed o query with
    | .error e => .error e
    | .ok query_embedding =>
      if query_embedding = [] then .ok []
      else .ok ((searchRows db query_embedding session_id limit candidate_limit).map
          (fun r => r.content))

/-! ### Pipeline: `app/core/pipeline.py` -/

/-- Collaborator bundle at the call boundaries of one pipeline run.
`llm_chat` and `llm_chat_with_tools` are the two methods of the
configured chat client; `parse_json` is `json.loads` (`none` models a
`JSONDecodeError`); `dumps_result` is `json.dumps` on a tool result. -/
structure Collab where
  transcribe : String → Except PyExc (String × ℚ)
  llm_chat : List Msg → Except PyExc (String × ℚ)
  llm_chat_with_tools : List Msg → List ToolSpec → Except PyExc (String × List ToolCallReq × ℚ)
  synthesize : String → String → Except PyExc (String × ℚ)
  embed : EmbedOracle
  remote : RemoteOracle
  parse_json : String → Option Json
  dumps_result : ToolResult → String

structure VoicePipeline where
  tool_registry : Option ToolRegistry := none
  system_prompt : String := "Tu es un assistant vocal local, concis et utile. Réponds en français."
  max_history_turns : Nat := 6

/-- Mutable state owned by the pipeline between runs: the per-session
in-memory history `self._history`, and the SQLite database wrapped by
the configured memory store (`none` when no memory store is set). -/
structure PipeState where
  history : List (String × List Msg) := []
  memory : Option MemDb := none

/-- Calls made to external collaborators during a run, in order. -/
inductive Event where
  | asrCall (audio : String)
  | llmChat
  | llmChatTools
  | toolExec (name : String)
  | ttsCall (text : String)
deriving DecidableEq, Repr

/-- Result of a pipeline run as driven by a worker: the mutated record,
the exception escaping the run (if any), the pipeline state after the
run, the collaborator calls made, and the successive values assigned to
`turn.status` during the run. -/
structure RunOutcome where
  turn : Turn
  exc : Option PyExc
  history : List (String × List Msg)
  memory : Option MemDb
  events : List Event
  trace : List TurnStatus

/-- Python `str.strip()`: drop whitespace from both ends (executable
character-list model). -/
def pyStrip (s : String) : String :=
  ⟨((s.data.dropWhile Char.isWhitespace).reverse.dropWhile Char.isWhitespace).reverse⟩

/-- Python tuple unpacking `content, role, created_at = item` where
`item` is a string: strings iterate over characters, so it succeeds only
when the string has exactly three characters and raises `ValueError`
otherwise. -/
def unpack3 (s : String) : Except PyExc (Char × Char × Char) :=
  match s.toList with
  | [a, b, c] => .ok (a, b, c)
  | l =>
    if l.length < 3 then .error (.valueError "not enough values to unpack (expected 3)")
    else .error (.valueError "too many values to unpack (expected 3)")

/-- One line of the injected memory block, built from one unpacked
triple `(content, role, created_at)`. -/
def ragLine (t : Char × Char × Char) : String :=
  "[" ++ String.singleton t.2.2 ++ "] (" ++ String.singleton t.2.1 ++ ") "
    ++ String.singleton t.1

/-- The memory-recall phase of step 2a: when a memory store is
configured and the stripped transcript is non-empty, run `search` and,
if it returned entries, unpack each returned content string as a triple
and build the auxiliary system-level context message.  Returns the list
of extra system messages (empty when recall is skipped or empty), or the
exception this phase raises. -/
def ragMessages (p : VoicePipeline) (c : Collab) (memory : Option MemDb)
    (session_id transcript : String) : Except PyExc (List Msg) :=
  match memory with
  | none => .ok []
  | some db =>
    if pyStrip transcript = "" then .ok []
    else
      match SQLiteMemory.search c.embed db session_id transcript (p.max_history_turns : Int) with
      | .error e => .error e
      | .ok rag_items =>
        if rag_items = [] then .ok []
        else
          match rag_items.mapM unpack3 with
          | .error e => .error e
          | .ok snippets =>
            let rag_text := "\n- " ++ String.intercalate "\n- " (snippets.map ragLine)
            .ok [{ role := "system",
                   content := "Mémoire long terme pertinente:" ++ rag_text }]

/-- The assistant message replaying the model tool calls, built before
executing them. -/
def assistantToolMsg (answer : String) (tool_calls : List ToolCallReq) : Msg :=
  { role := "assistant", content := answer,
    tool_calls := tool_calls.map (fun call =>
      { id := call.id, function_name := call.name, function_arguments := call.arguments }) }

/-- Sequential execution of the requested tool calls: for each call,
parse its raw argument string (`json.loads`; the empty string defaults
to the empty dict, and a decode error is swallowed to the empty dict),
execute it through the registry (which never raises), and accumulate the
result entry, the tool-result message, and the execution event. -/
def runToolCalls (c : Collab) (reg : ToolRegistry) :
    List ToolCallReq → List ToolResultEntry × List Msg × List Event
  | [] => ([], [], [])
  | call :: rest =>
    let argStr := if call.arguments = "" then "\x7b\x7d" else call.arguments
    let arguments := (c.parse_json argStr).getD (Json.obj [])
    let result := reg.execute c.remote call.name arguments
    let entry : ToolResultEntry :=
      { tool_call_id := call.id, name := call.name, result := result }
    let msg : Msg := { role := "tool", tool_call_id := some call.id,
                       name := some call.name, content := c.dumps_result result }
    let (entries, msgs, events) := runToolCalls c reg rest
    (entry :: entries, msg :: msgs, .toolExec call.name :: events)

/-- History push and trim, then step 3 (synthesis) and the transition to
`done`.  Python `history[-max_messages:]` keeps the whole list when
`max_messages = 0`, hence the inner guard. -/
def runTTS (p : VoicePipeline) (c : Collab) (memory : Option MemDb)
    (hist : List (String × List Msg)) (turn : Turn) (transcript : String) : RunOutcome :=
  let history := (List.lookup turn.session_id hist).getD []
  let history1 := history ++
    [{ role := "user", content := transcript },
     { role := "assistant", content := turn.assistant_text.getD "" }]
  let max_messages := p.max_history_turns * 2
  let history2 :=
    if history1.length > max_messages then
      (if max_messages = 0 then history1 else history1.drop (history1.length - max_messages))
    else history1
  let hist2 := assocSet hist turn.session_id history2
  let turn1 := { turn with status := TurnStatus.synthesizing }
  let out_path := "app/tts/outputs/turn_" ++ turn.turn_id ++ ".wav"
  match c.synthesize (turn.assistant_text.getD "") out_path with
  | .error e =>
    { turn := turn1, exc := some e, history := hist2, memory := memory,
      events := [.ttsCall (turn.assistant_text.getD "")], trace := [.synthesizing] }
  | .ok (audio_path, dt_tts) =>
    { turn := { turn1 with
                  audio_out_path := some audio_path,
                  timings := assocSet turn1.timings "tts_s" dt_tts,
                  status := TurnStatus.done },
      exc := none, history := hist2, memory := memory,
      events := [.ttsCall (turn.assistant_text.getD "")],
      trace := [.synthesizing, .done] }

/-- Step 2d: append the utterance and the final answer to the durable
memory store when one is configured (either append may raise), then hand
over to the history push and synthesis. -/
def runFinish (p : VoicePipeline) (c : Collab) (memory : Option MemDb)
    (hist : List (String × List Msg)) (turn : Turn) (transcript : String) : RunOutcome :=
  match memory with
  | none => runTTS p c none hist turn transcript
  | some db =>
    match SQLiteMemory.append c.embed db turn.session_id "user" transcript with
    | .error e =>
      { turn := turn, exc := some e, history := hist, memory := some db,
        events := [], trace := [] }
    | .ok db1 =>
      match SQLiteMemory.append c.embed db1 turn.session_id "assistant"
            (turn.assistant_text.getD "") with
      | .error e =>
        { turn := turn, exc := some e, history := hist, memory := some db1,
          events := [], trace := [] }
      | .ok db2 => runTTS p c (some db2) hist turn transcript

/-- Steps 2b (after the first model response) and 2c: the bounded tool
loop.  `turn` already carries the `llm_s` timing.  The dynamic
attributes `tool_calls` / `tool_results` are set on the record only in
the tool branch. -/
def runToolPhase (p : VoicePipeline) (c : Collab) (memory : Option MemDb)
    (hist : List (String × List Msg)) (turn : Turn) (transcript : String)
    (messages : List Msg) (answer : String) (tool_calls : List ToolCallReq) : RunOutcome :=
  match tool_calls, p.tool_registry with
  | call0 :: calls, some reg =>
    let all_calls := call0 :: calls
    let (tool_results, tool_msgs, tool_events) := runToolCalls c reg all_calls
    let tool_messages := assistantToolMsg answer all_calls :: tool_msgs
    let followup_messages := messages ++ tool_messages
    match c.llm_chat followup_messages with
    | .error e =>
      { turn := turn, exc := some e, history := hist, memory := memory,
        events := tool_events ++ [.llmChat], trace := [] }
    | .ok (final_answer, dt_tool_llm) =>
      let turn1 := { turn with
        timings := assocSet turn.timings "llm_tools_s" dt_tool_llm,
        assistant_text := some final_answer,
        tool_calls := some all_calls,
        tool_results := some tool_results }
      let r := runFinish p c memory hist turn1 transcript
      { r with events := tool_events ++ [.llmChat] ++ r.events }
  | _, _ =>
    runFinish p c memory hist { turn with assistant_text := some answer } transcript

/-- Step 2: `setdefault` on the session history, prompt assembly (system
instructions, optional memory context, bounded history, current
utterance) and the first model call. -/
def runGenerate (p : VoicePipeline) (c : Collab) (st : PipeState)
    (turn : Turn) (transcript : String) : RunOutcome :=
  let hist0 := if (List.lookup turn.session_id st.history).isSome then st.history
               else st.history ++ [(turn.session_id, [])]
  let history := (List.lookup turn.session_id hist0).getD []
  match ragMessages p c st.memory turn.session_id transcript with
  | .error e =>
    { turn := turn, exc := some e, history := hist0, memory := st.memory,
      events := [], trace := [] }
  | .ok rag_msgs =>
    let messages := { role := "system", content := p.system_prompt } :: rag_msgs
        ++ history ++ [{ role := "user", content := transcript }]
    match p.tool_registry with
    | some reg =>
      match c.llm_chat_with_tools messages reg.tool_specs with
      | .error e =>
        { turn := turn, exc := some e, history := hist0, memory := st.memory,
          events := [.llmChatTools], trace := [] }
      | .ok (answer, tool_calls, dt_llm) =>
        let turn1 := { turn with timings := assocSet turn.timings "llm_s" dt_llm }
        let r := runToolPhase p c st.memory hist0 turn1 transcript messages answer tool_calls
        { r with events := .llmChatTools :: r.events }
    | none =>
      match c.llm_chat messages with
      | .error e =>
        { turn := turn, exc := some e, history := hist0, memory := st.memory,
          events := [.llmChat], trace := [] }
      | .ok (answer, dt_llm) =>
        let turn1 := { turn with timings := assocSet turn.timings "llm_s" dt_llm }
        let r := runToolPhase p c st.memory hist0 turn1 transcript messages answer []
        { r with events := .llmChat :: r.events }

/-- `VoicePipeline.run`: the per-turn state machine.  A falsy
`audio_in_path` (absent or empty) goes straight to `error` with no
collaborator call; otherwise the stages run strictly in sequence and any
collaborator exception escapes with the record as mutated so far. -/
def VoicePipeline.run (p : VoicePipeline) (c : Collab) (st : PipeState) (turn : Turn) :
    RunOutcome :=
  match turn.audio_in_path with
  | none =>
    { turn := { turn with status := .error, error := some "audio_in_path is missing" },
      exc := none, history := st.history, memory := st.memory, events := [],
      trace := [.error] }
  | some audio =>
    if audio = "" then
      { turn := { turn with status := .error, error := some "audio_in_path is missing" },
        exc := none, history := st.history, memory := st.memory, events := [],
        trace := [.error] }
    else
      let turn1 := { turn with status := TurnStatus.transcribing }
      match c.transcribe audio with
      | .error e =>
        { turn := turn1, exc := some e, history := st.history, memory := st.memory,
          events := [.asrCall audio], trace := [.transcribing] }
      | .ok (transcript, dt_asr) =>
        let turn2 := { turn1 with
                       transcript := some transcript,
                       timings := assocSet turn1.timings "asr_s" dt_asr,
                       status := TurnStatus.generating }
        let r := runGenerate p c st turn2 transcript
        { r with events := .asrCall audio :: r.events,
                 trace := .transcribing :: .generating :: r.trace }

/-! ### Worker pool: `app/core/worker.py` -/

structure WorkerOutcome where
  store : TurnStore
  state : PipeState
  events : List Event
  trace : List TurnStatus

/-- One iteration of `WorkerPool._worker_loop` on a dequeued job id:
look up the record (skip silently if absent), run the pipeline, convert
an escaping exception into an `error`-status record at the executor
boundary, and write the record back in all cases (`finally`).  `trace`
is the full sequence of statuses assigned to the record. -/
def WorkerPool.workerStep (p : VoicePipeline) (c : Collab) (store : TurnStore)
    (st : PipeState) (turn_id : String) : WorkerOutcome :=
  match TurnStore.get store turn_id with
  | none => { store := store, state := st, events := [], trace := [] }
  | some turn =>
    let r := p.run c st turn
    match r.exc with
    | none =>
      { store := store.put r.turn,
        state := { history := r.history, memory := r.memory },
        events := r.events, trace := r.trace }
    | some e =>
      { store := store.put { r.turn with status := .error, error := some e.toMessage },
        state := { history := r.history, memory := r.memory },
        events := r.events, trace := r.trace ++ [.error] }

/-- The allowed transition relation on `status`: the defined path plus
the side transition to `error` from any non-terminal state. -/
def statusStep : TurnStatus → TurnStatus → Bool
  | .queued, .transcribing => true
  | .transcribing, .generating => true
  | .generating, .synthesizing => true
  | .synthesizing, .done => true
  | .queued, .error => true
  | .transcribing, .error => true
  | .generating, .error => true
  | .synthesizing, .error => true
  | _, _ => false

/-! ### Turn reading: `app/api/routes_turns.py` -/

inductive ApiError where
  | httpNotFound (detail : String)
  | attributeError (attr : String)
deriving DecidableEq, Repr

structure TurnView where
  turn_id : String
  session_id : String
  status : TurnStatus
  transcript : Option String
  assistant_text : Option String
  tool_calls : List ToolCallReq
  tool_results : List ToolResultEntry
  audio_url : Option String
  error : Option String
  timings : List (String × ℚ)

/-- `GET /v1/turns/(id)`; `fileExists` abstracts `os.path.exists`.
Building the response dict reads `turn.tool_calls` and
`turn.tool_results`; the `Turn` dataclass declares neither field, so the
read raises `AttributeError` unless the pipeline tool branch set them as
dynamic attributes. -/
def get_turn (store : TurnStore) (fileExists : String → Bool) (turn_id : String) :
    Except ApiError TurnView :=
  match store.get turn_id with
  | none => .error (.httpNotFound "turn not found")
  | some turn =>
    let audio_url :=
      match turn.audio_out_path with
      | some path =>
        if path = "" then none
        else if fileExists path then some ("/v1/turns/" ++ turn_id ++ "/audio")
        else none
      | none => none
    match turn.tool_calls with
    | none => .error (.attributeError "tool_calls")
    | some tcs =>
      match turn.tool_results with
      | none => .error (.attributeError "tool_results")
      | some trs =>
        .ok { turn_id := turn.turn_id, session_id := turn.session_id,
              status := turn.status, transcript := turn.transcript,
              assistant_text := turn.assistant_text, tool_calls := tcs,
              tool_results := trs, audio_url := audio_url,
              error := turn.error, timings := turn.timings }

/-! ### Specification predicates over run outcomes -/

/-- Invariant relating a stage input record to the stage outcome, used
for the later stages of a run (which start once `status` is
`generating`): the id is preserved, the output audio reference is
untouched whenever an exception escapes, and the statuses assigned from
here on are exactly one of the three legal tails. -/
def StageInv (t : Turn) (r : RunOutcome) : Prop :=
  r.turn.turn_id = t.turn_id
  ∧ (r.exc.isSome = true → r.turn.audio_out_path = t.audio_out_path)
  ∧ ((r.exc = none ∧ r.trace = [.synthesizing, .done] ∧ r.turn.status = .done)
     ∨ (r.exc.isSome = true
        ∧ ((r.trace = [] ∧ r.turn.status = t.status)
           ∨ (r.trace = [.synthesizing] ∧ r.turn.status = .synthesizing))))

/-- Full-run case analysis: every run leaves the record id unchanged,
never exposes an output audio reference on a failed or errored record,
and assigns statuses along exactly one of the five legal prefixes. -/
def RunSpec (t : Turn) (r : RunOutcome) : Prop :=
  r.turn.turn_id = t.turn_id
  ∧ (r.exc.isSome = true → r.turn.audio_out_path = t.audio_out_path)
  ∧ (r.exc = none → r.turn.status = .error → r.turn.audio_out_path = t.audio_out_path)
  ∧ ((r.exc = none ∧ r.trace = [.error] ∧ r.turn.status = .error)
     ∨ (r.exc.isSome = true ∧ r.trace = [.transcribing] ∧ r.turn.status = .transcribing)
     ∨ (r.exc = none ∧ r.trace = [.transcribing, .generating, .synthesizing, .done]
          ∧ r.turn.status = .done)
     ∨ (r.exc.isSome = true ∧ r.trace = [.transcribing, .generating]
          ∧ r.turn.status = .generating)
     ∨ (r.exc.isSome = true ∧ r.trace = [.transcribing, .generating, .synthesizing]
          ∧ r.turn.status = .synthesizing))

/-- The tool loop was never entered: no tool execution event, and the
dynamic `tool_calls` / `tool_results` attributes are as on the input
record. -/
def NoToolRun (t : Turn) (r : RunOutcome) : Prop :=
  (∀ n, Event.toolExec n ∉ r.events)
  ∧ r.turn.tool_calls = t.tool_calls
  ∧ r.turn.tool_results = t.tool_results

/-! ### Concrete fixtures used by witnesses and counterexamples -/

/-- A collaborator bundle whose external services all succeed. -/
def okCollab : Collab where
  transcribe := fun _ => .ok ("salut", 1)
  llm_chat := fun _ => .ok ("réponse", 1)
  llm_chat_with_tools := fun _ _ => .ok ("réponse", [], 1)
  synthesize := fun _ out_path => .ok (out_path, 1)
  embed := fun _ => .ok [1]
  remote := fun _ _ _ _ => .error "connection refused"
  parse_json := fun _ => none
  dumps_result := fun _ => "result"

/-- Same bundle with a failing speech synthesizer. -/
def ttsFailCollab : Collab :=
  { okCollab with synthesize := fun _ _ => .error (.collaborator "piper exited 1") }

/-- Same bundle with a failing embedding provider. -/
def embedFailCollab : Collab :=
  { okCollab with embed := fun _ => .error (.collaborator "embedding service down") }

/-- A memory database holding one vector-bearing entry whose content is
the seven-character string `bonjour`. -/
def dbOneEntry : MemDb where
  memories := [{ id := 1, session_id := "s", role := "user", content := "bonjour" }]
  vectors := [{ id := 1, memory_id := 1, session_id := "s", role := "user",
                content := "bonjour", embedding := [1] }]
  next_mem_id := 2
  next_vec_id := 2

/-- A freshly created queued record with stored input audio. -/
def turn0 : Turn := { turn_id := "t1", session_id := "s", audio_in_path := some "in.wav" }

def store0 : TurnStore := [("t1", turn0)]

def pipe0 : VoicePipeline := {}

def st0 : PipeState := {}

/-- Pipeline state with the memory store configured over `dbOneEntry`. -/
def stMem : PipeState := { memory := some dbOneEntry }

/-- A llama.cpp server post oracle that refuses connections. -/
def postRefused : PostOracle := fun _ _ _ => .error "connection refused"

/-- Collaborators whose chat client is a `LlamaCppClient` (both methods
delegate to it). -/
def llamaCollab : Collab :=
  { okCollab with
    llm_chat := fun messages => ({} : LlamaCppClient).chat postRefused messages,
    llm_chat_with_tools := fun messages tools =>
      ({} : LlamaCppClient).chat_with_tools postRefused messages tools }

/-- A pipeline with a (trivial) tool registry configured. -/
def pipeReg : VoicePipeline := { tool_registry := some (ToolRegistry.mk []) }

/-! ### Helper lemmas -/

theorem lookup_assocSet {α : Type} (d : List (String × α)) (k : String) (v : α) :
    List.lookup k (assocSet d k v) = some v := by
  induction d with
  | nil => simp [assocSet, List.lookup]
  | cons p rest ih =>
    obtain ⟨pk, pv⟩ := p
    by_cases h : pk = k
    · simp [assocSet, h, List.lookup]
    · have hne : (k == pk) = false := by
        simpa [beq_iff_eq] using Ne.symm h
      simp [assocSet, h, List.lookup, hne, ih]

theorem StageInv.cast {t t' : Turn} {r : RunOutcome} (h : StageInv t' r)
    (hid : t'.turn_id = t.turn_id) (haudio : t'.audio_out_path = t.audio_out_path)
    (hstat : t'.status = t.status) : StageInv t r := by
  unfold StageInv at h ⊢
  rw [hid, haudio, hstat] at h
  exact h

theorem runTTS_inv (p : VoicePipeline) (c : Collab) (memory : Option MemDb)
    (hist : List (String × List Msg)) (turn : Turn) (transcript : String) :
    StageInv turn (runTTS p c memory hist turn transcript) := by
  unfold runTTS
  cases h : c.synthesize (turn.assistant_text.getD "")
      ("app/tts/outputs/turn_" ++ turn.turn_id ++ ".wav") with
  | error e => simp [h, StageInv]
  | ok v =>
    obtain ⟨audio_path, dt_tts⟩ := v
    simp [h, StageInv]

theorem runFinish_inv (p : VoicePipeline) (c : Collab) (memory : Option MemDb)
    (hist : List (String × List Msg)) (turn : Turn) (transcript : String) :
    StageInv turn (runFinish p c memory hist turn transcript) := by
  cases memory with
  | none => simpa [runFinish] using runTTS_inv p c none hist turn transcript
  | some db =>
    simp only [runFinish]
    cases h1 : SQLiteMemory.append c.embed db turn.session_id "user" transcript with
    | error e => simp [StageInv]
    | ok db1 =>
      dsimp only
      cases h2 : SQLiteMemory.append c.embed db1 turn.session_id "assistant"
          (turn.assistant_text.getD "") with
      | error e => simp [StageInv]
      | ok db2 => simpa using runTTS_inv p c (some db2) hist turn transcript

theorem StageInv_events (t : Turn) (r : RunOutcome) (E : List Event)
    (h : StageInv t r) : StageInv t { r with events := E } := h

theorem runToolPhase_inv (p : VoicePipeline) (c : Collab) (memory : Option MemDb)
    (hist : List (String × List Msg)) (turn : Turn) (transcript : String)
    (messages : List Msg) (answer : String) (tool_calls : List ToolCallReq) :
    StageInv turn (runToolPhase p c memory hist turn transcript messages answer tool_calls) := by
  cases tool_calls with
  | nil =>
    simp only [runToolPhase]
    exact (runFinish_inv p c memory hist _ transcript).cast rfl rfl rfl
  | cons call0 calls =>
    cases hreg : p.tool_registry with
    | none =>
      simp only [runToolPhase, hreg]
      exact (runFinish_inv p c memory hist _ transcript).cast rfl rfl rfl
    | some reg =>
      simp only [runToolPhase, hreg]
      rcases hrtc : runToolCalls c reg (call0 :: calls) with ⟨tool_results, tool_msgs, tool_events⟩
      dsimp only
      cases hllm : c.llm_chat (messages ++ assistantToolMsg answer (call0 :: calls) :: tool_msgs) with
      | error e => simp [StageInv]
      | ok v =>
        obtain ⟨final_answer, dt_tool_llm⟩ := v
        dsimp only
        exact StageInv_events _ _ _ ((runFinish_inv p c memory hist _ transcript).cast rfl rfl rfl)

theorem runGenerate_inv (p : VoicePipeline) (c : Collab) (st : PipeState)
    (turn : Turn) (transcript : String) :
    StageInv turn (runGenerate p c st turn transcript) := by
  simp only [runGenerate]
  cases hrag : ragMessages p c st.memory turn.session_id transcript with
  | error e => simp [StageInv]
  | ok rag_msgs =>
    dsimp only
    cases hreg : p.tool_registry with
    | some reg =>
      dsimp only
      split
      · simp [StageInv]
      · exact StageInv_events _ _ _ ((runToolPhase_inv p c st.memory _ _ transcript _ _ _).cast rfl rfl rfl)
    | none =>
      dsimp only
      split
      · simp [StageInv]
      · exact StageInv_events _ _ _ ((runToolPhase_inv p c st.memory _ _ transcript _ _ _).cast rfl rfl rfl)

theorem RunSpec_of_tail (t t2 : Turn) (r : RunOutcome) (E : List Event)
    (h : StageInv t2 r) (hid : t2.turn_id = t.turn_id)
    (haud : t2.audio_out_path = t.audio_out_path)
    (hst : t2.status = .generating) :
    RunSpec t { r with events := E, trace := TurnStatus.transcribing :: TurnStatus.generating :: r.trace } := by
  obtain ⟨h1, h2, h3⟩ := h
  refine ⟨h1.trans hid, fun hs => (h2 hs).trans haud, ?_, ?_⟩
  · rintro hnone herr
    rcases h3 with ⟨_, _, hdone⟩ | ⟨hsome, _⟩
    · rw [hdone] at herr; cases herr
    · rw [hnone] at hsome; cases hsome
  · rcases h3 with ⟨hnone, htr, hdone⟩ | ⟨hsome, ⟨htr, hstat⟩ | ⟨htr, hstat⟩⟩
    · exact Or.inr (Or.inr (Or.inl ⟨hnone, by simp [htr], hdone⟩))
    · exact Or.inr (Or.inr (Or.inr (Or.inl ⟨hsome, by simp [htr], by rw [hstat, hst]⟩)))
    · exact Or.inr (Or.inr (Or.inr (Or.inr ⟨hsome, by simp [htr], hstat⟩)))

theorem run_spec (p : VoicePipeline) (c : Collab) (st : PipeState) (turn : Turn) :
    RunSpec turn (p.run c st turn) := by
  simp only [VoicePipeline.run]
  cases haud : turn.audio_in_path with
  | none => simp [RunSpec]
  | some audio =>
    dsimp only
    by_cases he : audio = ""
    · simp [he, RunSpec]
    · simp only [if_neg he]
      cases htr : c.transcribe audio with
      | error e => simp [RunSpec]
      | ok v =>
        obtain ⟨transcript, dt⟩ := v
        dsimp only
        exact RunSpec_of_tail _ _ _ _ (runGenerate_inv p c st _ transcript) rfl rfl rfl

/-! ### Claim C1: status transitions and unconditional write-back -/

/-- C1: for every queued Turn Record driven by a worker, the sequence of
statuses it takes on is a chain of the allowed transition relation
(`queued → transcribing → generating → synthesizing → done` with a side
transition to `error` from any non-terminal state), a terminal status
(`done` or `error`) occurs only in the final position (so once reached
it never changes), and the record is written back to the store whether
the run succeeded or failed. -/
theorem turn_status_transitions (p : VoicePipeline) (c : Collab) (store : TurnStore)
    (st : PipeState) (turn_id : String) (t0 : Turn)
    (hget : store.get turn_id = some t0) (hid : t0.turn_id = turn_id)
    (hq : t0.status = .queued) :
    List.Chain' (fun a b => statusStep a b = true)
      (TurnStatus.queued :: (WorkerPool.workerStep p c store st turn_id).trace)
    ∧ (∀ s ∈ (TurnStatus.queued :: (WorkerPool.workerStep p c store st turn_id).trace).dropLast,
        s.isTerminal = false)
    ∧ ∃ tfin, ((WorkerPool.workerStep p c store st turn_id).store).get turn_id = some tfin
        ∧ (TurnStatus.queued :: (WorkerPool.workerStep p c store st turn_id).trace).getLast?
            = some tfin.status
        ∧ tfin.status.isTerminal = true := by
  have hrs := run_spec p c st t0
  obtain ⟨hrid, _hpre, _hpre2, hcase⟩ := hrs
  have hputGen : ∀ tn : Turn, tn.turn_id = t0.turn_id →
      TurnStore.get (TurnStore.put store tn) turn_id = some tn := by
    intro tn htn
    unfold TurnStore.put TurnStore.get
    rw [htn, hid]
    exact lookup_assocSet store turn_id tn
  simp only [WorkerPool.workerStep, hget]
  cases hexc : (p.run c st t0).exc with
  | none =>
    dsimp only
    rcases hcase with ⟨_, htrace, hst⟩ | ⟨hs, _, _⟩ | ⟨_, htrace, hst⟩ | ⟨hs, _, _⟩ | ⟨hs, _, _⟩
    · rw [htrace]
      refine ⟨by simp [List.chain'_cons, List.chain'_singleton, statusStep], by decide,
        (p.run c st t0).turn, hputGen _ hrid, ?_, ?_⟩
      · rw [hst]; rfl
      · rw [hst]; rfl
    · rw [hexc] at hs; cases hs
    · rw [htrace]
      refine ⟨by simp [List.chain'_cons, List.chain'_singleton, statusStep], by decide,
        (p.run c st t0).turn, hputGen _ hrid, ?_, ?_⟩
      · rw [hst]; rfl
      · rw [hst]; rfl
    · rw [hexc] at hs; cases hs
    · rw [hexc] at hs; cases hs
  | some e =>
    dsimp only
    rcases hcase with ⟨hn, _, _⟩ | ⟨_, htrace, _⟩ | ⟨hn, _, _⟩ | ⟨_, htrace, _⟩ | ⟨_, htrace, _⟩
    · rw [hexc] at hn; cases hn
    · rw [htrace]
      exact ⟨by simp [List.chain'_cons, List.chain'_singleton, statusStep], by decide,
        { (p.run c st t0).turn with status := .error, error := some e.toMessage },
        hputGen _ hrid, rfl, rfl⟩
    · rw [hexc] at hn; cases hn
    · rw [htrace]
      exact ⟨by simp [List.chain'_cons, List.chain'_singleton, statusStep], by decide,
        { (p.run c st t0).turn with status := .error, error := some e.toMessage },
        hputGen _ hrid, rfl, rfl⟩
    · rw [htrace]
      exact ⟨by simp [List.chain'_cons, List.chain'_singleton, statusStep], by decide,
        { (p.run c st t0).turn with status := .error, error := some e.toMessage },
        hputGen _ hrid, rfl, rfl⟩

/-- Witness for C1 at a concrete queued record and all-success
collaborators. -/
theorem turn_status_transitions_witness :
    List.Chain' (fun a b => statusStep a b = true)
      (TurnStatus.queued :: (WorkerPool.workerStep pipe0 okCollab store0 st0 "t1").trace)
    ∧ (∀ s ∈ (TurnStatus.queued ::
          (WorkerPool.workerStep pipe0 okCollab store0 st0 "t1").trace).dropLast,
        s.isTerminal = false)
    ∧ ∃ tfin, ((WorkerPool.workerStep pipe0 okCollab store0 st0 "t1").store).get "t1" = some tfin
        ∧ (TurnStatus.queued ::
            (WorkerPool.workerStep pipe0 okCollab store0 st0 "t1").trace).getLast?
              = some tfin.status
        ∧ tfin.status.isTerminal = true :=
  turn_status_transitions pipe0 okCollab store0 st0 "t1" turn0 rfl rfl rfl

/-! ### Claim C5: missing or empty audio reference -/

/-- C5: a turn whose audio input reference is absent or empty goes
straight to `error` with the descriptive message, no exception escapes,
and no collaborator at all is called (the event list is empty, so in
particular there are zero calls to the transcriber, the model, and the
synthesizer). -/
theorem missing_audio_no_collaborator (p : VoicePipeline) (c : Collab) (st : PipeState)
    (turn : Turn) (h : turn.audio_in_path = none ∨ turn.audio_in_path = some "") :
    (p.run c st turn).turn.status = .error
    ∧ (p.run c st turn).turn.error = some "audio_in_path is missing"
    ∧ (p.run c st turn).exc = none
    ∧ (p.run c st turn).events = [] := by
  rcases h with h | h <;> simp [VoicePipeline.run, h]

/-- Witness for C5 at a record with no audio reference. -/
theorem missing_audio_no_collaborator_witness :
    (pipe0.run okCollab st0 { turn_id := "t2", session_id := "s" }).turn.status = .error
    ∧ (pipe0.run okCollab st0 { turn_id := "t2", session_id := "s" }).turn.error
        = some "audio_in_path is missing"
    ∧ (pipe0.run okCollab st0 { turn_id := "t2", session_id := "s" }).exc = none
    ∧ (pipe0.run okCollab st0 { turn_id := "t2", session_id := "s" }).events = [] :=
  missing_audio_no_collaborator pipe0 okCollab st0 _ (Or.inl rfl)

/-! ### Claim C9: what an error record exposes -/

/-- Counterexample to C9 as stated: when synthesis fails after a
successful generation, the stored record has `status = error` but still
carries the generated `assistant_text` — a partial result is exposed on
an error record. -/
theorem error_turn_exposes_assistant_text :
    ∃ tfin, ((WorkerPool.workerStep pipe0 ttsFailCollab store0 st0 "t1").store).get "t1"
        = some tfin
      ∧ tfin.status = .error
      ∧ tfin.assistant_text = some "réponse" :=
  ⟨_, rfl, rfl, rfl⟩

/-- C9 (amended): an error record never carries an output audio
reference (`audio_out_path` is only assigned on the success path, after
which the status can no longer become `error`), but `assistant_text` may
be present on an error record. -/
theorem error_turn_has_no_audio_out (p : VoicePipeline) (c : Collab) (store : TurnStore)
    (st : PipeState) (turn_id : String) (t0 : Turn)
    (hget : store.get turn_id = some t0) (hid : t0.turn_id = turn_id)
    (haudio : t0.audio_out_path = none) :
    ∃ tfin, ((WorkerPool.workerStep p c store st turn_id).store).get turn_id = some tfin
      ∧ (tfin.status = .error → tfin.audio_out_path = none) := by
  have hrs := run_spec p c st t0
  obtain ⟨hrid, hpres, hpres2, _⟩ := hrs
  have hputGen : ∀ tn : Turn, tn.turn_id = t0.turn_id →
      TurnStore.get (TurnStore.put store tn) turn_id = some tn := by
    intro tn htn
    unfold TurnStore.put TurnStore.get
    rw [htn, hid]
    exact lookup_assocSet store turn_id tn
  simp only [WorkerPool.workerStep, hget]
  cases hexc : (p.run c st t0).exc with
  | none =>
    dsimp only
    exact ⟨(p.run c st t0).turn, hputGen _ hrid,
      fun herr => (hpres2 hexc herr).trans haudio⟩
  | some e =>
    dsimp only
    refine ⟨{ (p.run c st t0).turn with status := .error, error := some e.toMessage },
      hputGen _ hrid, fun _ => ?_⟩
    have : (p.run c st t0).exc.isSome = true := by rw [hexc]; rfl
    exact (hpres this).trans haudio

/-- Witness for the amended C9 at a concrete queued record. -/
theorem error_turn_has_no_audio_out_witness :
    ∃ tfin, ((WorkerPool.workerStep pipe0 ttsFailCollab store0 st0 "t1").store).get "t1"
        = some tfin
      ∧ (tfin.status = .error → tfin.audio_out_path = none) :=
  error_turn_has_no_audio_out pipe0 ttsFailCollab store0 st0 "t1" turn0 rfl rfl rfl

/-! ### Claim C4: total tool execution -/

/-- C4: `ToolRegistry.execute` is total by construction (its embedding
returns a plain `ToolResult`, mirroring the catch-all handlers in the
source: every raise inside a local handler or the remote call is
converted into an `ok := false` result), and on an unregistered tool
name it returns `ok := false` with a `tool_not_found` error, without
raising. -/
theorem execute_unknown_tool (reg : ToolRegistry) (remote : RemoteOracle)
    (tool_name : String) (arguments : Json) (h : reg.find tool_name = none) :
    (reg.execute remote tool_name arguments).ok = false
    ∧ (reg.execute remote tool_name arguments).error
        = some ("tool_not_found: " ++ tool_name) := by
  simp [ToolRegistry.execute, h]

/-- Witness for C4 on an empty registry and an unknown name. -/
theorem execute_unknown_tool_witness :
    (ToolRegistry.mk []).find "get_weather" = none
    ∧ ((ToolRegistry.mk []).execute (fun _ _ _ _ => .error "down") "get_weather"
        (Json.obj [])).ok = false
    ∧ ((ToolRegistry.mk []).execute (fun _ _ _ _ => .error "down") "get_weather"
        (Json.obj [])).error = some "tool_not_found: get_weather" :=
  ⟨rfl,
   (execute_unknown_tool (ToolRegistry.mk []) (fun _ _ _ _ => .error "down")
      "get_weather" (Json.obj []) rfl).1,
   (execute_unknown_tool (ToolRegistry.mk []) (fun _ _ _ _ => .error "down")
      "get_weather" (Json.obj []) rfl).2⟩

/-! ### Claim C7: append with empty content -/

/-- Counterexample to C7 as stated: `append` with empty content returns
immediately — nothing is written to the durable log at all, so the entry
does not participate in recency recall (`fetch_recent` finds nothing). -/
theorem append_empty_writes_nothing :
    SQLiteMemory.append (fun _ => .ok [1]) ({} : MemDb) "s" "user" "" = .ok ({} : MemDb)
    ∧ ({} : MemDb).memories = []
    ∧ SQLiteMemory.fetch_recent ({} : MemDb) "s" 10 = [] :=
  ⟨rfl, rfl, rfl⟩

/-- C7 (amended): `append` with empty content writes nothing at all (no
log entry and no vector); only non-empty content is written to the log,
and it additionally gets a vector row exactly when the computed
embedding is non-empty. -/
theorem append_spec (o : EmbedOracle) (db : MemDb) (session_id role content : String)
    (emb : List ℚ) (hc : content ≠ "")
    (he : SQLiteMemory._embed o content = .ok emb) :
    SQLiteMemory.append o db session_id role "" = .ok db
    ∧ ∃ db', SQLiteMemory.append o db session_id role content = .ok db'
        ∧ db'.memories = db.memories ++
            [{ id := db.next_mem_id, session_id := session_id, role := role,
               content := content }]
        ∧ (emb = [] → db'.vectors = db.vectors)
        ∧ (emb ≠ [] → db'.vectors = db.vectors ++
            [{ id := db.next_vec_id, memory_id := db.next_mem_id,
               session_id := session_id, role := role, content := content,
               embedding := emb }]) := by
  refine ⟨by simp [SQLiteMemory.append], ?_⟩
  simp only [SQLiteMemory.append, if_neg hc, he]
  by_cases hemb : emb = []
  · exact ⟨{ db with
        memories := db.memories ++
          [{ id := db.next_mem_id, session_id := session_id, role := role,
             content := content }],
        next_mem_id := db.next_mem_id + 1 },
      by rw [if_pos hemb], rfl, fun _ => rfl, fun h => absurd hemb h⟩
  · exact ⟨{ db with
        memories := db.memories ++
          [{ id := db.next_mem_id, session_id := session_id, role := role,
             content := content }],
        next_mem_id := db.next_mem_id + 1,
        vectors := db.vectors ++
          [{ id := db.next_vec_id, memory_id := db.next_mem_id, session_id := session_id,
             role := role, content := content, embedding := emb }],
        next_vec_id := db.next_vec_id + 1 },
      by rw [if_neg hemb], rfl, fun h => absurd h hemb, fun _ => rfl⟩

/-- Witness for the amended C7 at a concrete non-empty content whose
embedding is non-empty. -/
theorem append_spec_witness :
    SQLiteMemory.append (fun _ => .ok [1]) ({} : MemDb) "s" "user" "" = .ok ({} : MemDb)
    ∧ ∃ db', SQLiteMemory.append (fun _ => .ok [1]) ({} : MemDb) "s" "user" "bonjour"
          = .ok db'
        ∧ db'.memories = ({} : MemDb).memories ++
            [{ id := ({} : MemDb).next_mem_id, session_id := "s", role := "user",
               content := "bonjour" }]
        ∧ (([1] : List ℚ) = [] → db'.vectors = ({} : MemDb).vectors)
        ∧ (([1] : List ℚ) ≠ [] → db'.vectors = ({} : MemDb).vectors ++
            [{ id := ({} : MemDb).next_vec_id, memory_id := ({} : MemDb).next_mem_id,
               session_id := "s", role := "user", content := "bonjour",
               embedding := [1] }]) :=
  append_spec (fun _ => .ok [1]) ({} : MemDb) "s" "user" "bonjour" [1]
    (by decide) rfl

/-! ### Claim C6: reading the tool trace of a stored turn -/

/-- Evaluation for C6: a turn processed without any tool call (here: no
tool registry) completes to `done`, but its record carries no
`tool_calls` attribute, so `get_turn` on it raises `AttributeError`
instead of returning an empty trace. -/
theorem get_turn_raises_without_tool_branch :
    ∃ tfin, ((WorkerPool.workerStep pipe0 okCollab store0 st0 "t1").store).get "t1"
        = some tfin
      ∧ tfin.status = .done
      ∧ tfin.tool_calls = none
      ∧ get_turn ((WorkerPool.workerStep pipe0 okCollab store0 st0 "t1").store)
          (fun _ => true) "t1" = .error (.attributeError "tool_calls") :=
  ⟨_, rfl, rfl, rfl, rfl⟩

/-! ### Claim C2: memory recall injection -/

/-- Evaluation for C2: with a configured memory store holding one
vector-bearing entry (content `bonjour`) and a matching non-empty
transcript, `search` succeeds and returns the content string, but the
pipeline then unpacks that string as a `(content, role, created_at)`
triple, which raises `ValueError`; the turn ends in `error` before any
model call instead of proceeding into generation with a memory-context
message. -/
theorem search_result_unpack_crashes_turn :
    SQLiteMemory.search okCollab.embed dbOneEntry "s" "salut" 6 200 = .ok ["bonjour"]
    ∧ (pipe0.run okCollab stMem turn0).exc
        = some (.valueError "too many values to unpack (expected 3)")
    ∧ (pipe0.run okCollab stMem turn0).events = [.asrCall "in.wav"]
    ∧ ∃ tfin, ((WorkerPool.workerStep pipe0 okCollab store0 stMem "t1").store).get "t1"
          = some tfin
        ∧ tfin.status = .error := by
  have hsearch : SQLiteMemory.search okCollab.embed dbOneEntry "s" "salut" 6 200
      = .ok ["bonjour"] := by
    simp [SQLiteMemory.search, SQLiteMemory._embed, searchRows, searchCandidates,
      dbOneEntry, okCollab]
  have hrag : ragMessages pipe0 okCollab (some dbOneEntry) "s" "salut"
      = .error (.valueError "too many values to unpack (expected 3)") := by
    have hmap : List.mapM.loop unpack3 ["bonjour"] []
        = (Except.error (PyExc.valueError "too many values to unpack (expected 3)")
            : Except PyExc (List (Char × Char × Char))) := rfl
    have htrim : (pyStrip "salut" = "") = False := by decide
    simp [ragMessages, pipe0, hsearch, hmap, htrim]
  have htrans : okCollab.transcribe "in.wav" = .ok ("salut", 1) := rfl
  have hrun : pipe0.run okCollab stMem turn0
      = { turn := { turn0 with
            status := .generating, transcript := some "salut",
            timings := [("asr_s", 1)] },
          exc := some (.valueError "too many values to unpack (expected 3)"),
          history := [("s", [])], memory := some dbOneEntry,
          events := [.asrCall "in.wav"], trace := [.transcribing, .generating] } := by
    simp [VoicePipeline.run, runGenerate, turn0, stMem, htrans, hrag, assocSet]
  refine ⟨hsearch, by rw [hrun], by rw [hrun], ?_⟩
  simp only [WorkerPool.workerStep]
  rw [show TurnStore.get store0 "t1" = some turn0 from rfl]
  dsimp only
  rw [hrun]
  exact ⟨_, rfl, rfl⟩

/-! ### Claim C3: embedding failure during recall -/

/-- Counterexample to C3 as stated: when the embedding provider raises
during recall, the turn does NOT reach `done` — the exception escapes
the pipeline (there is no try/except around the search) and the worker
marks the record `error`; no model call is ever made. -/
theorem embed_failure_errors_turn :
    ∃ tfin, ((WorkerPool.workerStep pipe0 embedFailCollab store0 stMem "t1").store).get "t1"
        = some tfin
      ∧ tfin.status = .error
      ∧ tfin.status ≠ .done
      ∧ (WorkerPool.workerStep pipe0 embedFailCollab store0 stMem "t1").events
          = [.asrCall "in.wav"] :=
  ⟨_, rfl, rfl, by decide, rfl⟩

/-- C3 (amended): when a memory store is configured, the transcript is
non-empty after stripping, and the embedding provider raises during
recall, the recall failure fails the whole turn: the exception escapes
the run before any model call (the only collaborator event is the
transcription), and the worker stores the record with `status = error`
and the raised message. -/
theorem embed_error_turn_errors (p : VoicePipeline) (c : Collab) (st : PipeState)
    (turn : Turn) (a t : String) (dt : ℚ) (db : MemDb) (e : PyExc)
    (h1 : turn.audio_in_path = some a) (h2 : a ≠ "")
    (h3 : c.transcribe a = .ok (t, dt))
    (h4 : pyStrip t ≠ "")
    (h5 : st.memory = some db)
    (h6 : c.embed t = .error e)
    (h7 : 0 < p.max_history_turns) :
    (p.run c st turn).exc = some e
    ∧ (p.run c st turn).events = [.asrCall a]
    ∧ ∀ store : TurnStore, store.get turn.turn_id = some turn →
        ∃ tfin, ((WorkerPool.workerStep p c store st turn.turn_id).store).get turn.turn_id
            = some tfin
          ∧ tfin.status = .error ∧ tfin.error = some e.toMessage := by
  have ht : t ≠ "" := by
    intro h
    apply h4
    rw [h]
    rfl
  have hsearch : SQLiteMemory.search c.embed db turn.session_id t
      ((p.max_history_turns : Nat) : Int) 200 = .error e := by
    have hguard : ¬(t = "" ∨ ((p.max_history_turns : Nat) : Int) ≤ 0) := by
      push_neg
      exact ⟨ht, by omega⟩
    rw [SQLiteMemory.search, if_neg hguard]
    simp only [SQLiteMemory._embed, if_neg ht, h6]
  have hrag : ragMessages p c st.memory turn.session_id t = .error e := by
    rw [h5]
    simp only [ragMessages]
    rw [if_neg h4, hsearch]
  have hmain : (p.run c st turn).exc = some e
      ∧ (p.run c st turn).events = [.asrCall a] := by
    simp only [VoicePipeline.run, h1]
    rw [if_neg h2]
    simp only [h3]
    simp only [runGenerate, hrag]
    simp
  refine ⟨hmain.1, hmain.2, ?_⟩
  intro store hstore
  obtain ⟨hrid, _, _, _⟩ := run_spec p c st turn
  have hputGen : ∀ tn : Turn, tn.turn_id = turn.turn_id →
      TurnStore.get (TurnStore.put store tn) turn.turn_id = some tn := by
    intro tn htn
    unfold TurnStore.put TurnStore.get
    rw [htn]
    exact lookup_assocSet store turn.turn_id tn
  simp only [WorkerPool.workerStep, hstore, hmain.1]
  exact ⟨_, hputGen _ hrid, rfl, rfl⟩

/-- Witness for the amended C3 at concrete collaborators whose embedding
service raises. -/
theorem embed_error_turn_errors_witness :
    (pipe0.run embedFailCollab stMem turn0).exc
        = some (.collaborator "embedding service down")
    ∧ (pipe0.run embedFailCollab stMem turn0).events = [.asrCall "in.wav"]
    ∧ ∀ store : TurnStore, store.get turn0.turn_id = some turn0 →
        ∃ tfin, ((WorkerPool.workerStep pipe0 embedFailCollab store stMem
              turn0.turn_id).store).get turn0.turn_id = some tfin
          ∧ tfin.status = .error
          ∧ tfin.error = some (PyExc.collaborator "embedding service down").toMessage :=
  embed_error_turn_errors pipe0 embedFailCollab stMem turn0 "in.wav" "salut" 1 dbOneEntry
    (.collaborator "embedding service down") rfl (by decide) rfl (by decide) rfl rfl
    (by decide)

/-! ### Claim C10: llama.cpp backend never offers tools -/

theorem NoToolRun_cast {t t' : Turn} {r : RunOutcome} (h : NoToolRun t' r)
    (h1 : t'.tool_calls = t.tool_calls) (h2 : t'.tool_results = t.tool_results) :
    NoToolRun t r :=
  ⟨h.1, h.2.1.trans h1, h.2.2.trans h2⟩

theorem NoToolRun_wrap {t : Turn} {r : RunOutcome} (h : NoToolRun t r) (e : Event)
    (he : ∀ n, e ≠ Event.toolExec n) (tr : List TurnStatus) :
    NoToolRun t { r with events := e :: r.events, trace := tr } := by
  refine ⟨?_, h.2.1, h.2.2⟩
  intro n hn
  rcases List.mem_cons.mp hn with hn | hn
  · exact he n hn.symm
  · exact h.1 n hn

theorem runTTS_notool (p : VoicePipeline) (c : Collab) (memory : Option MemDb)
    (hist : List (String × List Msg)) (turn : Turn) (transcript : String) :
    NoToolRun turn (runTTS p c memory hist turn transcript) := by
  unfold runTTS
  cases h : c.synthesize (turn.assistant_text.getD "")
      ("app/tts/outputs/turn_" ++ turn.turn_id ++ ".wav") with
  | error e => simp [h, NoToolRun]
  | ok v =>
    obtain ⟨audio_path, dt_tts⟩ := v
    simp [h, NoToolRun]

theorem runFinish_notool (p : VoicePipeline) (c : Collab) (memory : Option MemDb)
    (hist : List (String × List Msg)) (turn : Turn) (transcript : String) :
    NoToolRun turn (runFinish p c memory hist turn transcript) := by
  cases memory with
  | none => simpa [runFinish] using runTTS_notool p c none hist turn transcript
  | some db =>
    simp only [runFinish]
    cases h1 : SQLiteMemory.append c.embed db turn.session_id "user" transcript with
    | error e => simp [NoToolRun]
    | ok db1 =>
      dsimp only
      cases h2 : SQLiteMemory.append c.embed db1 turn.session_id "assistant"
          (turn.assistant_text.getD "") with
      | error e => simp [NoToolRun]
      | ok db2 => simpa using runTTS_notool p c (some db2) hist turn transcript

theorem runToolPhase_notool (p : VoicePipeline) (c : Collab) (memory : Option MemDb)
    (hist : List (String × List Msg)) (turn : Turn) (transcript : String)
    (messages : List Msg) (answer : String) :
    NoToolRun turn (runToolPhase p c memory hist turn transcript messages answer []) := by
  simp only [runToolPhase]
  exact NoToolRun_cast (runFinish_notool p c memory hist _ transcript) rfl rfl

theorem runGenerate_notool (p : VoicePipeline) (c : Collab) (st : PipeState)
    (turn : Turn) (transcript : String)
    (hcalls : ∀ (messages : List Msg) (tools : List ToolSpec) text calls dt,
        c.llm_chat_with_tools messages tools = .ok (text, calls, dt) → calls = []) :
    NoToolRun turn (runGenerate p c st turn transcript) := by
  simp only [runGenerate]
  cases hrag : ragMessages p c st.memory turn.session_id transcript with
  | error e => simp [NoToolRun]
  | ok rag_msgs =>
    dsimp only
    cases hreg : p.tool_registry with
    | some reg =>
      dsimp only
      split
      · simp [NoToolRun]
      · rename_i answer tool_calls dt_llm heq
        have hc0 := hcalls _ _ _ _ _ heq
        subst hc0
        exact NoToolRun_wrap
          (NoToolRun_cast (runToolPhase_notool p c st.memory _ _ transcript _ answer) rfl rfl)
          _ (by simp) _
    | none =>
      dsimp only
      split
      · simp [NoToolRun]
      · rename_i answer dt_llm heq
        exact NoToolRun_wrap
          (NoToolRun_cast (runToolPhase_notool p c st.memory _ _ transcript _ answer) rfl rfl)
          _ (by simp) _

theorem run_notool (p : VoicePipeline) (c : Collab) (st : PipeState) (turn : Turn)
    (hcalls : ∀ (messages : List Msg) (tools : List ToolSpec) text calls dt,
        c.llm_chat_with_tools messages tools = .ok (text, calls, dt) → calls = []) :
    NoToolRun turn (p.run c st turn) := by
  simp only [VoicePipeline.run]
  cases haud : turn.audio_in_path with
  | none => simp [NoToolRun]
  | some audio =>
    dsimp only
    by_cases he : audio = ""
    · simp [he, NoToolRun]
    · simp only [if_neg he]
      cases htr : c.transcribe audio with
      | error e => simp [NoToolRun]
      | ok v =>
        obtain ⟨transcript, dt⟩ := v
        dsimp only
        exact NoToolRun_wrap
          (NoToolRun_cast (runGenerate_notool p c st _ transcript hcalls) rfl rfl)
          _ (by simp) _

/-- C10: on the llama.cpp backend, `chat_with_tools` returns exactly
what `chat` returns on the same messages together with an always-empty
tool-call list (the `tools` argument is never used), so a pipeline whose
chat client is a `LlamaCppClient` never offers the model any tools,
never executes a tool, and never sets the dynamic tool attributes on the
record. -/
theorem llamacpp_tools_ignored (self : LlamaCppClient) (post : PostOracle)
    (p : VoicePipeline) (c : Collab) (st : PipeState) (turn : Turn)
    (hc : c.llm_chat_with_tools = fun messages tools =>
        self.chat_with_tools post messages tools) :
    (∀ (messages : List Msg) (tools : List ToolSpec) (temperature : ℚ)
        (max_tokens : Int) (model : Option String),
        self.chat_with_tools post messages tools temperature max_tokens model
          = Except.map (fun r => (r.1, ([] : List ToolCallReq), r.2))
              (self.chat post messages temperature max_tokens model))
    ∧ (∀ n, Event.toolExec n ∉ (p.run c st turn).events)
    ∧ (p.run c st turn).turn.tool_calls = turn.tool_calls
    ∧ (p.run c st turn).turn.tool_results = turn.tool_results := by
  have hmap : ∀ (messages : List Msg) (tools : List ToolSpec) (temperature : ℚ)
      (max_tokens : Int) (model : Option String),
      self.chat_with_tools post messages tools temperature max_tokens model
        = Except.map (fun r => (r.1, ([] : List ToolCallReq), r.2))
            (self.chat post messages temperature max_tokens model) := by
    intro messages tools temperature max_tokens model
    unfold LlamaCppClient.chat_with_tools
    cases h : self.chat post messages temperature max_tokens model with
    | error e => simp [Except.map]
    | ok v =>
      obtain ⟨text, dt⟩ := v
      simp [Except.map]
  have hcalls : ∀ (messages : List Msg) (tools : List ToolSpec) text calls dt,
      c.llm_chat_with_tools messages tools = .ok (text, calls, dt) → calls = [] := by
    intro messages tools text calls dt h
    rw [hc] at h
    dsimp only at h
    rw [hmap] at h
    cases hch : self.chat post messages (2/10) 300 none with
    | error e => rw [hch] at h; cases h
    | ok v =>
      rw [hch] at h
      obtain ⟨text', dt'⟩ := v
      simp only [Except.map, Except.ok.injEq, Prod.mk.injEq] at h
      exact h.2.1.symm
  obtain ⟨e1, e2, e3⟩ := run_notool p c st turn hcalls
  exact ⟨hmap, e1, e2, e3⟩

/-- Witness for C10: a pipeline with a configured tool registry driven
by a `LlamaCppClient`-backed collaborator bundle. -/
theorem llamacpp_tools_ignored_witness :
    (∀ (messages : List Msg) (tools : List ToolSpec) (temperature : ℚ)
        (max_tokens : Int) (model : Option String),
        ({} : LlamaCppClient).chat_with_tools postRefused messages tools
            temperature max_tokens model
          = Except.map (fun r => (r.1, ([] : List ToolCallReq), r.2))
              (({} : LlamaCppClient).chat postRefused messages temperature max_tokens model))
    ∧ (∀ n, Event.toolExec n ∉ (pipeReg.run llamaCollab st0 turn0).events)
    ∧ (pipeReg.run llamaCollab st0 turn0).turn.tool_calls = turn0.tool_calls
    ∧ (pipeReg.run llamaCollab st0 turn0).turn.tool_results = turn0.tool_results :=
  llamacpp_tools_ignored {} postRefused pipeReg llamaCollab st0 turn0 rfl

/-! ### Claim C8: ranked similarity search -/

theorem vecNormSq_nonneg (v : List ℚ) : 0 ≤ vecNormSq v := by
  unfold vecNormSq
  apply List.sum_nonneg
  intro x hx
  simp only [List.mem_map] at hx
  obtain ⟨a, _, rfl⟩ := hx
  exact mul_self_nonneg a

theorem vector_norm_eq_zero (v : List ℚ) : _vector_norm v = 0 ↔ vecNormSq v = 0 := by
  unfold _vector_norm vecNormSq
  rw [Real.sqrt_eq_zero (by exact_mod_cast vecNormSq_nonneg v)]
  exact_mod_cast Iff.rfl

theorem symScore_snd_pos (q c : List ℚ) : 0 < (symScore q c).2 := by
  unfold symScore
  by_cases h1 : q = [] ∨ c = []
  · simp [h1]
  · simp only [if_neg h1]
    by_cases h2 : vecNormSq c = 0 ∨ vecNormSq q = 0
    · simp [h2]
    · push_neg at h2
      simp only [if_neg (not_or.mpr h2)]
      exact mul_pos ((vecNormSq_nonneg q).lt_of_ne (Ne.symm h2.2))
        ((vecNormSq_nonneg c).lt_of_ne (Ne.symm h2.1))

theorem score_eq (q c : List ℚ) :
    _cosine_similarity q c (_vector_norm q)
      = ((symScore q c).1 : ℝ) / Real.sqrt (((symScore q c).2 : ℚ) : ℝ) := by
  unfold _cosine_similarity symScore
  by_cases h1 : q = [] ∨ c = []
  · simp [h1]
  · simp only [if_neg h1]
    by_cases h2 : vecNormSq c = 0 ∨ vecNormSq q = 0
    · have h2' : _vector_norm c = 0 ∨ _vector_norm q = 0 := by
        rcases h2 with h | h
        · exact Or.inl ((vector_norm_eq_zero c).mpr h)
        · exact Or.inr ((vector_norm_eq_zero q).mpr h)
      simp [h2, h2']
    · have h2' : ¬(_vector_norm c = 0 ∨ _vector_norm q = 0) := by
        push_neg at h2 ⊢
        exact ⟨fun h => h2.1 ((vector_norm_eq_zero c).mp h),
               fun h => h2.2 ((vector_norm_eq_zero q).mp h)⟩
      simp only [if_neg h2, if_neg h2']
      unfold _vector_norm
      rw [show (((vecNormSq q * vecNormSq c : ℚ)) : ℝ)
            = ((vecNormSq q : ℚ) : ℝ) * ((vecNormSq c : ℚ) : ℝ) by push_cast; ring]
      rw [Real.sqrt_mul (by exact_mod_cast vecNormSq_nonneg q)]

theorem geCmp_iff {a x b y : ℚ} (hx : 0 < x) (hy : 0 < y) :
    geCmp (a, x) (b, y) = true
      ↔ (b : ℝ) / Real.sqrt ((y : ℚ) : ℝ) ≤ (a : ℝ) / Real.sqrt ((x : ℚ) : ℝ) := by
  have hsx : (0:ℝ) < Real.sqrt ((x : ℚ) : ℝ) := Real.sqrt_pos.mpr (by exact_mod_cast hx)
  have hsy : (0:ℝ) < Real.sqrt ((y : ℚ) : ℝ) := Real.sqrt_pos.mpr (by exact_mod_cast hy)
  have hx2 : Real.sqrt ((x : ℚ) : ℝ) ^ 2 = ((x : ℚ) : ℝ) :=
    Real.sq_sqrt (by exact_mod_cast hx.le)
  have hy2 : Real.sqrt ((y : ℚ) : ℝ) ^ 2 = ((y : ℚ) : ℝ) :=
    Real.sq_sqrt (by exact_mod_cast hy.le)
  rw [div_le_div_iff hsy hsx]
  unfold geCmp
  by_cases ha : 0 ≤ a
  · by_cases hb : 0 ≤ b
    · simp only [if_pos ha, if_pos hb, decide_eq_true_eq]
      have ha' : (0:ℝ) ≤ (a:ℝ) := by exact_mod_cast ha
      have hb' : (0:ℝ) ≤ (b:ℝ) := by exact_mod_cast hb
      constructor
      · intro h
        have h' : (b:ℝ)^2 * ((x : ℚ) : ℝ) ≤ (a:ℝ)^2 * ((y : ℚ) : ℝ) := by exact_mod_cast h
        nlinarith [mul_nonneg hb' hsx.le, mul_nonneg ha' hsy.le,
          sq_nonneg ((a:ℝ) * Real.sqrt ((y : ℚ) : ℝ) - (b:ℝ) * Real.sqrt ((x : ℚ) : ℝ)),
          sq_nonneg ((a:ℝ) * Real.sqrt ((y : ℚ) : ℝ) + (b:ℝ) * Real.sqrt ((x : ℚ) : ℝ))]
      · intro h
        have h' : (b:ℝ)^2 * ((x : ℚ) : ℝ) ≤ (a:ℝ)^2 * ((y : ℚ) : ℝ) := by
          nlinarith [mul_nonneg hb' hsx.le]
        exact_mod_cast h'
    · simp only [if_pos ha, if_neg hb]
      have hb' : (b:ℝ) < 0 := by exact_mod_cast lt_of_not_le hb
      have ha' : (0:ℝ) ≤ (a:ℝ) := by exact_mod_cast ha
      constructor
      · intro _
        nlinarith [mul_nonneg ha' hsy.le]
      · intro _
        trivial
  · by_cases hb : 0 ≤ b
    · simp only [if_neg ha, if_pos hb]
      have ha' : (a:ℝ) < 0 := by exact_mod_cast lt_of_not_le ha
      have hb' : (0:ℝ) ≤ (b:ℝ) := by exact_mod_cast hb
      constructor
      · intro h
        cases h
      · intro hP
        exact absurd hP (not_le.mpr (by nlinarith [mul_nonneg hb' hsx.le]))
    · simp only [if_neg ha, if_neg hb, decide_eq_true_eq]
      have ha' : (a:ℝ) < 0 := by exact_mod_cast lt_of_not_le ha
      have hb' : (b:ℝ) < 0 := by exact_mod_cast lt_of_not_le hb
      constructor
      · intro h
        have h' : (a:ℝ)^2 * ((y : ℚ) : ℝ) ≤ (b:ℝ)^2 * ((x : ℚ) : ℝ) := by exact_mod_cast h
        nlinarith [mul_pos (neg_pos.mpr ha') hsy, mul_pos (neg_pos.mpr hb') hsx,
          sq_nonneg ((a:ℝ) * Real.sqrt ((y : ℚ) : ℝ) - (b:ℝ) * Real.sqrt ((x : ℚ) : ℝ)),
          sq_nonneg ((a:ℝ) * Real.sqrt ((y : ℚ) : ℝ) + (b:ℝ) * Real.sqrt ((x : ℚ) : ℝ))]
      · intro h
        have h' : (a:ℝ)^2 * ((y : ℚ) : ℝ) ≤ (b:ℝ)^2 * ((x : ℚ) : ℝ) := by
          nlinarith [mul_pos (neg_pos.mpr ha') hsy, mul_pos (neg_pos.mpr hb') hsx,
            sq_nonneg ((a:ℝ) * Real.sqrt ((y : ℚ) : ℝ) - (b:ℝ) * Real.sqrt ((x : ℚ) : ℝ)),
            sq_nonneg ((a:ℝ) * Real.sqrt ((y : ℚ) : ℝ) + (b:ℝ) * Real.sqrt ((x : ℚ) : ℝ))]
        exact_mod_cast h'

theorem scoreGE_iff (q : List ℚ) (r1 r2 : VecRow) :
    scoreGE q r1 r2 = true
      ↔ _cosine_similarity q r2.embedding (_vector_norm q)
          ≤ _cosine_similarity q r1.embedding (_vector_norm q) := by
  unfold scoreGE
  rw [score_eq, score_eq]
  exact geCmp_iff (symScore_snd_pos q r1.embedding) (symScore_snd_pos q r2.embedding)

theorem scoreGE_total (q : List ℚ) (a b : VecRow) :
    scoreGE q a b || scoreGE q b a := by
  rcases le_total (_cosine_similarity q b.embedding (_vector_norm q))
      (_cosine_similarity q a.embedding (_vector_norm q)) with h | h
  · simp [(scoreGE_iff q a b).mpr h]
  · simp [(scoreGE_iff q b a).mpr h]

theorem scoreGE_trans (q : List ℚ) (a b c : VecRow)
    (h1 : scoreGE q a b) (h2 : scoreGE q b c) : scoreGE q a c :=
  (scoreGE_iff q a c).mpr (((scoreGE_iff q b c).mp h2).trans ((scoreGE_iff q a b).mp h1))

/-- Stable descending sort by cosine score: the sorted candidate list is
pairwise ordered by score, and rows with equal scores keep the order of
the scan (most recent, i.e. largest id, first), provided the input scan
was strictly descending by id. -/
theorem mergeSort_scoreGE_pairwise (q : List ℚ) (cands : List VecRow)
    (hid : cands.Pairwise (fun a b => b.id < a.id)) :
    (cands.mergeSort (scoreGE q)).Pairwise (fun a b =>
      _cosine_similarity q b.embedding (_vector_norm q)
        ≤ _cosine_similarity q a.embedding (_vector_norm q)
      ∧ (_cosine_similarity q a.embedding (_vector_norm q)
          = _cosine_similarity q b.embedding (_vector_norm q) → b.id < a.id)) := by
  have htrans : ∀ a b c : VecRow, scoreGE q a b → scoreGE q b c → scoreGE q a c :=
    scoreGE_trans q
  have htotal : ∀ a b : VecRow, scoreGE q a b || scoreGE q b a := scoreGE_total q
  rw [← List.mergeSort_enum, List.pairwise_map]
  have hs := List.sorted_mergeSort (List.enumLE_trans htrans) (List.enumLE_total htotal)
    cands.enum
  have hperm := List.mergeSort_perm cands.enum (List.enumLE (scoreGE q))
  have hnd : (List.mergeSort cands.enum (List.enumLE (scoreGE q))).Pairwise
      (fun p1 p2 => p1.1 ≠ p2.1) := by
    have h1 : (cands.enum.map Prod.fst).Nodup := by
      rw [List.enum_map_fst]
      exact List.nodup_range _
    have h2 : ((List.mergeSort cands.enum (List.enumLE (scoreGE q))).map Prod.fst).Nodup :=
      ((hperm.map Prod.fst).nodup_iff).mpr h1
    exact List.pairwise_map.mp h2
  refine List.Pairwise.imp_of_mem ?_ (hs.and hnd)
  rintro ⟨i, a⟩ ⟨j, b⟩ hma hmb ⟨henum, hne⟩
  have hma' : (i, a) ∈ cands.enum := (hperm.mem_iff).mp hma
  have hmb' : (j, b) ∈ cands.enum := (hperm.mem_iff).mp hmb
  have hab : scoreGE q a b = true := by
    by_contra hc
    simp only [List.enumLE, Bool.not_eq_true] at henum hc
    rw [hc] at henum
    cases henum
  have hij : scoreGE q b a = true → i ≤ j := by
    intro hba
    simp only [List.enumLE, hab, hba, if_true] at henum
    simpa using henum
  refine ⟨(scoreGE_iff q a b).mp hab, ?_⟩
  intro heq
  have hba : scoreGE q b a = true := (scoreGE_iff q b a).mpr (le_of_eq heq)
  have hlt : i < j := lt_of_le_of_ne (hij hba) (by simpa using hne)
  have hga := (List.mem_enum_iff_get?).mp hma'
  have hgb := (List.mem_enum_iff_get?).mp hmb'
  obtain ⟨hia, hga'⟩ := List.get?_eq_some.mp hga
  obtain ⟨hjb, hgb'⟩ := List.get?_eq_some.mp hgb
  have hp := List.pairwise_iff_getElem.mp hid i j hia hjb hlt
  rw [← List.get_eq_getElem cands ⟨i, hia⟩, ← List.get_eq_getElem cands ⟨j, hjb⟩] at hp
  rw [hga', hgb'] at hp
  exact hp

/-- C8: for every database, session, query, `limit` K and
`candidate_limit`, a successful `search` returns at most K entries; the
returned contents come from rows of the `candidate_limit` most recent
vector-bearing entries of that session (so every returned entry belongs
to the session); and those rows are ordered by cosine similarity against
the query embedding, descending, with ties broken by recency (larger row
id first).  The id hypothesis is the AUTOINCREMENT table invariant:
`memory_vectors` ids are strictly increasing in insertion order. -/
theorem search_ranked (o : EmbedOracle) (db : MemDb) (session_id query : String)
    (limit : Int) (candidate_limit : Nat) (out : List String)
    (hids : (db.vectors.map VecRow.id).Pairwise (· < ·))
    (h : SQLiteMemory.search o db session_id query limit candidate_limit = .ok out) :
    out.length ≤ limit.toNat
    ∧ ∃ rows : List VecRow, out = rows.map (fun r => r.content)
        ∧ (∀ r ∈ rows, r ∈ searchCandidates db session_id candidate_limit
            ∧ r.session_id = session_id)
        ∧ ∀ qe, SQLiteMemory._embed o query = .ok qe →
            rows.Pairwise (fun a b =>
              _cosine_similarity qe b.embedding (_vector_norm qe)
                ≤ _cosine_similarity qe a.embedding (_vector_norm qe)
              ∧ (_cosine_similarity qe a.embedding (_vector_norm qe)
                  = _cosine_similarity qe b.embedding (_vector_norm qe) → b.id < a.id)) := by
  unfold SQLiteMemory.search at h
  by_cases hg : query = "" ∨ limit ≤ 0
  · rw [if_pos hg] at h
    have hout : out = [] := by
      cases h
      rfl
    subst hout
    exact ⟨by simp, [], by simp, by simp, fun qe _ => by simp⟩
  · rw [if_neg hg] at h
    cases hemb : SQLiteMemory._embed o query with
    | error e =>
      rw [hemb] at h
      cases h
    | ok qe0 =>
      rw [hemb] at h
      dsimp only at h
      by_cases hq0 : qe0 = []
      · rw [if_pos hq0] at h
        have hout : out = [] := by
          cases h
          rfl
        subst hout
        exact ⟨by simp, [], by simp, by simp, fun qe _ => by simp⟩
      · rw [if_neg hq0] at h
        have hout : out
            = (searchRows db qe0 session_id limit candidate_limit).map
                (fun r => r.content) := by
          cases h
          rfl
        subst hout
        have hcands : (searchCandidates db session_id candidate_limit).Pairwise
            (fun a b => b.id < a.id) := by
          have h1 : db.vectors.Pairwise (fun a b => a.id < b.id) :=
            List.pairwise_map.mp hids
          have h2 := h1.filter (fun r => decide (r.session_id = session_id))
          have h3 : ((db.vectors.filter
              (fun r => decide (r.session_id = session_id))).reverse).Pairwise
              (fun a b => b.id < a.id) := List.pairwise_reverse.mpr h2
          exact h3.sublist (List.take_sublist _ _)
        refine ⟨?_, searchRows db qe0 session_id limit candidate_limit, rfl, ?_, ?_⟩
        · simp only [List.length_map, searchRows, List.length_take]
          exact min_le_left _ _
        · intro r hr
          have hr1 : r ∈ (searchCandidates db session_id candidate_limit).mergeSort
              (scoreGE qe0) := List.mem_of_mem_take hr
          have hr2 : r ∈ searchCandidates db session_id candidate_limit :=
            List.mem_mergeSort.mp hr1
          refine ⟨hr2, ?_⟩
          have hr3 : r ∈ (db.vectors.filter
              (fun r => decide (r.session_id = session_id))).reverse :=
            List.mem_of_mem_take hr2
          have hr4 := (List.mem_filter.mp (List.mem_reverse.mp hr3)).2
          exact of_decide_eq_true hr4
        · intro qe hqe
          have hqe' : qe0 = qe := by
            cases hqe
            rfl
          subst hqe'
          exact (mergeSort_scoreGE_pairwise qe0 _ hcands).sublist (List.take_sublist _ _)

/-- Witness for C8 at a concrete one-entry database and query. -/
theorem search_ranked_witness :
    (["bonjour"] : List String).length ≤ (6 : Int).toNat
    ∧ ∃ rows : List VecRow, ["bonjour"] = rows.map (fun r => r.content)
        ∧ (∀ r ∈ rows, r ∈ searchCandidates dbOneEntry "s" 200 ∧ r.session_id = "s")
        ∧ ∀ qe, SQLiteMemory._embed okCollab.embed "salut" = .ok qe →
            rows.Pairwise (fun a b =>
              _cosine_similarity qe b.embedding (_vector_norm qe)
                ≤ _cosine_similarity qe a.embedding (_vector_norm qe)
              ∧ (_cosine_similarity qe a.embedding (_vector_norm qe)
                  = _cosine_similarity qe b.embedding (_vector_norm qe) → b.id < a.id)) :=
  search_ranked okCollab.embed dbOneEntry "s" "salut" 6 200 ["bonjour"]
    (by simp [dbOneEntry])
    (by simp [SQLiteMemory.search, SQLiteMemory._embed, searchRows, searchCandidates,
      dbOneEntry, okCollab])
